import Mathlib

/-!
Verification of the workflow execution engine of
`backend/workflows_app/engine/executor.py`.

The engine is shallowly embedded: Python's JSON-like dynamic values become the
inductive type `Value`, Python dicts become association lists with
insert-or-overwrite semantics, the HTTP client becomes an explicit environment
function, and real-time measurements (elapsed milliseconds, timestamps) are
modelled as the constant `0` since no property below depends on them.
JSON numbers are modelled as integers (fractional literals are outside the
model); Python `float(...)` parsing of condition operands is modelled exactly
on decimal literals, with the parsed values compared as exact rationals.
-/

namespace Executor

/-- A JSON-like dynamic value, the payload type of the engine's variable
store, node configuration bags, and evaluator outputs.  Python `None`
stored inside a container is `vNull`. -/
inductive Value where
  | vNull : Value
  | vBool (b : Bool) : Value
  | vNum (n : Int) : Value
  | vStr (s : String) : Value
  | vArr (elems : List Value) : Value
  | vObj (fields : List (String × Value)) : Value
  deriving Repr

mutual

/-- Boolean equality on `Value` (the automatic derivation does not support
this nested inductive). -/
def beqValue : Value → Value → Bool
  | .vNull, .vNull => true
  | .vBool a, .vBool b => a == b
  | .vNum a, .vNum b => a == b
  | .vStr a, .vStr b => a == b
  | .vArr a, .vArr b => beqValueList a b
  | .vObj a, .vObj b => beqValueFields a b
  | _, _ => false

def beqValueList : List Value → List Value → Bool
  | [], [] => true
  | a :: as, b :: bs => beqValue a b && beqValueList as bs
  | _, _ => false

def beqValueFields : List (String × Value) → List (String × Value) → Bool
  | [], [] => true
  | (k, v) :: as, (k2, v2) :: bs => k == k2 && beqValue v v2 && beqValueFields as bs
  | _, _ => false

end

mutual

theorem beqValue_eq : ∀ a b : Value, beqValue a b = true → a = b
  | .vNull, .vNull, _ => rfl
  | .vBool _, .vBool _, h => by
    simpa [beqValue] using congrArg Value.vBool (by simpa [beqValue] using h : _ = _)
  | .vNum _, .vNum _, h => congrArg Value.vNum (by simpa [beqValue] using h)
  | .vStr _, .vStr _, h => congrArg Value.vStr (by simpa [beqValue] using h)
  | .vArr a, .vArr b, h =>
    congrArg Value.vArr (beqValueList_eq a b (by simpa [beqValue] using h))
  | .vObj a, .vObj b, h =>
    congrArg Value.vObj (beqValueFields_eq a b (by simpa [beqValue] using h))

theorem beqValueList_eq : ∀ a b : List Value, beqValueList a b = true → a = b
  | [], [], _ => rfl
  | a :: as, b :: bs, h => by
    have h2 := (by simpa [beqValueList] using h : beqValue a b = true ∧ beqValueList as bs = true)
    exact congrArg₂ List.cons (beqValue_eq a b h2.1) (beqValueList_eq as bs h2.2)

theorem beqValueFields_eq :
    ∀ a b : List (String × Value), beqValueFields a b = true → a = b
  | [], [], _ => rfl
  | (k, v) :: as, (k2, v2) :: bs, h => by
    have h2 := (by simpa [beqValueFields] using h :
      (k = k2 ∧ beqValue v v2 = true) ∧ beqValueFields as bs = true)
    have hv := beqValue_eq v v2 h2.1.2
    have hrest := beqValueFields_eq as bs h2.2
    simp [h2.1.1, hv, hrest]

end

mutual

theorem beqValue_refl : ∀ a : Value, beqValue a a = true
  | .vNull => rfl
  | .vBool b => by simp [beqValue]
  | .vNum n => by simp [beqValue]
  | .vStr s => by simp [beqValue]
  | .vArr a => by simpa [beqValue] using beqValueList_refl a
  | .vObj a => by simpa [beqValue] using beqValueFields_refl a

theorem beqValueList_refl : ∀ a : List Value, beqValueList a a = true
  | [] => rfl
  | a :: as => by simp [beqValueList, beqValue_refl a, beqValueList_refl as]

theorem beqValueFields_refl : ∀ a : List (String × Value), beqValueFields a a = true
  | [] => rfl
  | (k, v) :: as => by simp [beqValueFields, beqValue_refl v, beqValueFields_refl as]

end

instance : DecidableEq Value := fun a b =>
  if h : beqValue a b = true then isTrue (beqValue_eq a b h)
  else isFalse (fun he => h (he ▸ beqValue_refl a))

/-- Lookup in a Python dict modelled as an association list (first match;
`dictInsert` keeps keys unique and in first-insertion order, as CPython
dicts do). -/
def dictGet {α : Type} (l : List (String × α)) (k : String) : Option α :=
  match l with
  | [] => none
  | (k2, v) :: rest => if k2 = k then some v else dictGet rest k

/-- Python dict assignment `d[k] = v`: update in place if the key exists,
else append, preserving insertion order. -/
def dictInsert {α : Type} (l : List (String × α)) (k : String) (v : α) :
    List (String × α) :=
  match l with
  | [] => [(k, v)]
  | (k2, v2) :: rest =>
    if k2 = k then (k, v) :: rest else (k2, v2) :: dictInsert rest k v

/-- Python `{**a, **b}`: entries of `b` override or extend `a`. -/
def dictMerge {α : Type} (a b : List (String × α)) : List (String × α) :=
  b.foldl (fun acc kv => dictInsert acc kv.1 kv.2) a

/-- Python truthiness of a JSON-like value. -/
def pyTruthy : Value → Bool
  | .vNull => false
  | .vBool b => b
  | .vNum n => n != 0
  | .vStr s => s != ""
  | .vArr l => !l.isEmpty
  | .vObj l => !l.isEmpty

/-- Python whitespace for `str.strip()` (ASCII model). -/
def isPySpace (c : Char) : Bool :=
  c = ' ' || c = '\t' || c = '\n' || c = '\r' || c = '\x0b' || c = '\x0c'

/-- Strip leading and trailing whitespace from a character list. -/
def trimChars (cs : List Char) : List Char :=
  ((cs.dropWhile isPySpace).reverse.dropWhile isPySpace).reverse

/-- Python `str.strip()`. -/
def strTrim (s : String) : String :=
  String.mk (trimChars s.data)

/-- Python `str.split(sep)` for a one-character separator (all `split` calls
in the engine use one). -/
def splitOnChar (c : Char) : List Char → List (List Char)
  | [] => [[]]
  | x :: rest =>
    let r := splitOnChar c rest
    if x = c then [] :: r else (x :: r.headD []) :: r.tail

/-- Python `str.split(sep, 1)` for a one-character separator: `none` when
the separator does not occur (which is also the `sep in s` test). -/
def splitFirst (c : Char) : List Char → Option (List Char × List Char)
  | [] => none
  | x :: rest =>
    if x = c then some ([], rest)
    else (splitFirst c rest).map (fun p => (x :: p.1, p.2))

/-- Python `str.upper()` (ASCII model). -/
def strUpper (s : String) : String :=
  String.mk (s.data.map Char.toUpper)

/-- The single-quote character, used by Python `repr` of strings. -/
def squote : Char := Char.ofNat 39

/-- Left and right curly braces as characters. -/
def lbrace : Char := Char.ofNat 123

def rbrace : Char := Char.ofNat 125

/-- Single-quote a string, as Python `repr` renders string elements of
containers. -/
def pyQuoted (s : String) : String :=
  String.singleton squote ++ s ++ String.singleton squote

mutual

/-- Python `str()` of a value.  Containers render in Python-`repr` style
(single-quoted strings); the engine only ever reaches this case through
degenerate configurations, no claim depends on its exact text. -/
def pyStr : Value → String
  | .vNull => "None"
  | .vBool b => if b then "True" else "False"
  | .vNum n => toString n
  | .vStr s => s
  | .vArr l => "[" ++ pyReprElems l ++ "]"
  | .vObj l => String.singleton lbrace ++ pyReprFields l ++ String.singleton rbrace

def pyReprElems : List Value → String
  | [] => ""
  | [.vStr s] => pyQuoted s
  | [v] => pyStr v
  | .vStr s :: rest => pyQuoted s ++ ", " ++ pyReprElems rest
  | v :: rest => pyStr v ++ ", " ++ pyReprElems rest

def pyReprFields : List (String × Value) → String
  | [] => ""
  | [(k, .vStr s)] => pyQuoted k ++ ": " ++ pyQuoted s
  | [(k, v)] => pyQuoted k ++ ": " ++ pyStr v
  | (k, .vStr s) :: rest => pyQuoted k ++ ": " ++ pyQuoted s ++ ", " ++ pyReprFields rest
  | (k, v) :: rest => pyQuoted k ++ ": " ++ pyStr v ++ ", " ++ pyReprFields rest

end

/-- Escape one character for a JSON string literal. -/
def jsonEscapeChar (c : Char) : String :=
  if c = '"' then "\\\""
  else if c = '\\' then "\\\\"
  else if c = '\n' then "\\n"
  else if c = '\t' then "\\t"
  else if c = '\r' then "\\r"
  else String.singleton c

def jsonEscape (s : String) : String :=
  s.data.foldl (fun acc c => acc ++ jsonEscapeChar c) ""

mutual

/-- Python `json.dumps` with default separators (`", "` and `": "`). -/
def jsonDumps : Value → String
  | .vNull => "null"
  | .vBool b => if b then "true" else "false"
  | .vNum n => toString n
  | .vStr s => "\"" ++ jsonEscape s ++ "\""
  | .vArr l => "[" ++ jsonDumpsElems l ++ "]"
  | .vObj l => String.singleton lbrace ++ jsonDumpsFields l ++ String.singleton rbrace

def jsonDumpsElems : List Value → String
  | [] => ""
  | [v] => jsonDumps v
  | v :: rest => jsonDumps v ++ ", " ++ jsonDumpsElems rest

def jsonDumpsFields : List (String × Value) → String
  | [] => ""
  | [(k, v)] => "\"" ++ jsonEscape k ++ "\": " ++ jsonDumps v
  | (k, v) :: rest => "\"" ++ jsonEscape k ++ "\": " ++ jsonDumps v ++ ", " ++ jsonDumpsFields rest

end

/-! ### A JSON parser modelling `json.loads`

Strict JSON grammar over characters, with fuel for termination.  Numbers are
integer literals (see the header note); `\uXXXX` escapes are decoded from
four hex digits. -/

def isJsonWs (c : Char) : Bool :=
  c = ' ' || c = '\t' || c = '\n' || c = '\r'

def skipWs (cs : List Char) : List Char :=
  cs.dropWhile isJsonWs

def hexVal (c : Char) : Option Nat :=
  if '0' ≤ c ∧ c ≤ '9' then some (c.toNat - 48)
  else if 'a' ≤ c ∧ c ≤ 'f' then some (c.toNat - 87)
  else if 'A' ≤ c ∧ c ≤ 'F' then some (c.toNat - 55)
  else none

/-- Parse the body of a JSON string literal (after the opening quote). -/
def parseStringBody : List Char → Option (String × List Char)
  | [] => none
  | c :: rest =>
    if c = '"' then some ("", rest)
    else if c = '\\' then
      match rest with
      | [] => none
      | e :: rest2 =>
        if e = 'u' then
          match rest2 with
          | h1 :: h2 :: h3 :: h4 :: rest3 =>
            match hexVal h1, hexVal h2, hexVal h3, hexVal h4 with
            | some a, some b, some c2, some d =>
              (parseStringBody rest3).map
                (fun p => (String.mk (Char.ofNat (((a * 16 + b) * 16 + c2) * 16 + d) :: p.1.data), p.2))
            | _, _, _, _ => none
          | _ => none
        else
          let dec : Option Char :=
            if e = '"' then some '"'
            else if e = '\\' then some '\\'
            else if e = '/' then some '/'
            else if e = 'n' then some '\n'
            else if e = 't' then some '\t'
            else if e = 'r' then some '\r'
            else if e = 'b' then some (Char.ofNat 8)
            else if e = 'f' then some (Char.ofNat 12)
            else none
          match dec with
          | some d => (parseStringBody rest2).map (fun p => (String.mk (d :: p.1.data), p.2))
          | none => none
    else (parseStringBody rest).map (fun p => (String.mk (c :: p.1.data), p.2))

def digitsToNat (ds : List Char) : Nat :=
  ds.foldl (fun a c => a * 10 + (c.toNat - 48)) 0

/-- Parse a JSON number (integer literals only, see header note). -/
def parseJsonNumber (cs : List Char) : Option (Value × List Char) :=
  let (neg, cs1) := match cs with
    | '-' :: r => (true, r)
    | _ => (false, cs)
  let ds := cs1.takeWhile Char.isDigit
  let cs2 := cs1.dropWhile Char.isDigit
  if ds.isEmpty then none
  else
    match cs2 with
    | '.' :: _ => none
    | 'e' :: _ => none
    | 'E' :: _ => none
    | _ =>
      let n : Int := Int.ofNat (digitsToNat ds)
      some (.vNum (if neg then -n else n), cs2)

mutual

/-- Parse one JSON value, returning it with the unconsumed remainder. -/
def parseJsonValue : Nat → List Char → Option (Value × List Char)
  | 0, _ => none
  | fuel + 1, cs =>
    match skipWs cs with
    | 'n' :: 'u' :: 'l' :: 'l' :: rest => some (.vNull, rest)
    | 't' :: 'r' :: 'u' :: 'e' :: rest => some (.vBool true, rest)
    | 'f' :: 'a' :: 'l' :: 's' :: 'e' :: rest => some (.vBool false, rest)
    | '"' :: rest => (parseStringBody rest).map (fun p => (.vStr p.1, p.2))
    | c :: rest =>
      if c = lbrace then
        match skipWs rest with
        | c2 :: rest2 =>
          if c2 = rbrace then some (.vObj [], rest2)
          else parseJsonMembers fuel (c2 :: rest2) []
        | [] => none
      else if c = '[' then
        match skipWs rest with
        | ']' :: rest2 => some (.vArr [], rest2)
        | rest2 => parseJsonItems fuel rest2 []
      else parseJsonNumber (c :: rest)
    | [] => none

/-- Parse the members of a JSON object, starting at a key. -/
def parseJsonMembers (fuel : Nat) (cs : List Char) (acc : List (String × Value)) :
    Option (Value × List Char) :=
  match fuel with
  | 0 => none
  | fuel + 1 =>
    match skipWs cs with
    | '"' :: rest =>
      match parseStringBody rest with
      | none => none
      | some (key, afterKey) =>
        match skipWs afterKey with
        | ':' :: afterColon =>
          match parseJsonValue fuel afterColon with
          | none => none
          | some (v, afterVal) =>
            let acc2 := dictInsert acc key v
            match skipWs afterVal with
            | ',' :: afterComma => parseJsonMembers fuel afterComma acc2
            | c :: rest2 => if c = rbrace then some (.vObj acc2, rest2) else none
            | [] => none
        | _ => none
    | _ => none

/-- Parse the items of a JSON array, starting at a value. -/
def parseJsonItems (fuel : Nat) (cs : List Char) (acc : List Value) :
    Option (Value × List Char) :=
  match fuel with
  | 0 => none
  | fuel + 1 =>
    match parseJsonValue fuel cs with
    | none => none
    | some (v, afterVal) =>
      let acc2 := acc ++ [v]
      match skipWs afterVal with
      | ',' :: afterComma => parseJsonItems fuel afterComma acc2
      | ']' :: rest2 => some (.vArr acc2, rest2)
      | _ => none

end

/-- Python `json.loads`: parse a complete JSON document (trailing whitespace
allowed, anything else is a failure). -/
def jsonLoads (s : String) : Option Value :=
  match parseJsonValue (s.data.length + 1) s.data with
  | some (v, rest) => if skipWs rest = [] then some v else none
  | none => none

/-! ### The template resolver `_resolve_variables`

Placeholders are `\x7b\x7bpath\x7d\x7d` where `path` matches `[\w.]+`
(ASCII word characters and dots).  Scanning is left to right as in `re.sub`:
on a failed match the scanner advances one character, on a successful match
it continues after the closing braces. -/

/-- A character of the regex class `[\w.]` (ASCII model of `\w`). -/
def isWordChar (c : Char) : Bool :=
  c.isAlphanum || c = '_' || c = '.'

/-- Longest run of `[\w.]` characters and the remainder. -/
def takeWordRun : List Char → List Char × List Char
  | [] => ([], [])
  | c :: rest =>
    if isWordChar c then
      let p := takeWordRun rest
      (c :: p.1, p.2)
    else ([], c :: rest)

/-- A stored JSON `null` is Python `None`: indexing that produced it behaves
like a miss in `get_nested_value`. -/
def pyNullToNone : Option Value → Option Value
  | some .vNull => none
  | o => o

/-- `get_nested_value`: descend a dot path; at each step index objects by
key, parse strings as JSON and continue if that yields an object, and abort
(Python `None`) on anything else. -/
def getNested : Option Value → List String → Option Value
  | cur, [] => cur
  | cur, part :: rest =>
    match cur with
    | none => none
    | some (.vObj fs) => getNested (pyNullToNone (dictGet fs part)) rest
    | some (.vStr s) =>
      match jsonLoads s with
      | some (.vObj fs) => getNested (pyNullToNone (dictGet fs part)) rest
      | _ => none
    | some _ => none

/-- The literal placeholder text `\x7b\x7bpath\x7d\x7d` (what `match.group(0)`
returns). -/
def origText (path : String) : String :=
  "\x7b\x7b" ++ path ++ "\x7d\x7d"

/-- How a fully resolved value is rendered into the output: JSON-serialized
for objects and arrays, `str()` otherwise. -/
def stringOfValue (v : Value) : String :=
  match v with
  | .vObj _ => jsonDumps v
  | .vArr _ => jsonDumps v
  | _ => pyStr v

/-- `replace_var`: resolve one matched placeholder path against the variable
store.  For a dotted path the root is looked up first (`dict.get`, so an
absent key and a stored `None` both fail the `is not None` guard); for a
plain path the value is looked up directly with the original text as the
default. -/
def replaceVar (vars : List (String × Value)) (path : String) : String :=
  match splitFirst '.' path.data with
  | some (rootCs, restCs) =>
    match dictGet vars (String.mk rootCs) with
    | some rootVal =>
      if rootVal = .vNull then origText path
      else
        match getNested (some rootVal) ((splitOnChar '.' restCs).map String.mk) with
        | some v => stringOfValue v
        | none => origText path
    | none => origText path
  | none =>
    match dictGet vars path with
    | some v => stringOfValue v
    | none => origText path

/-- Try to match the placeholder regex at the head of the input, returning
the path characters and the remainder after the closing braces. -/
def tryPlaceholder (cs : List Char) : Option (List Char × List Char) :=
  match cs with
  | c1 :: c2 :: rest =>
    if c1 = lbrace && c2 = lbrace then
      match takeWordRun rest with
      | (w, r) =>
        match w, r with
        | _ :: _, d1 :: d2 :: r2 =>
          if d1 = rbrace && d2 = rbrace then some (w, r2) else none
        | _, _ => none
    else none
  | _ => none

/-- The `re.sub` scan: at each position try the placeholder pattern; on a
match emit the replacement and continue after it, otherwise emit one
character and advance.  Fuel bounds the number of steps (each step consumes
at least one character, so the input length suffices). -/
def scanTemplate (vars : List (String × Value)) : Nat → List Char → List Char
  | 0, cs => cs
  | _ + 1, [] => []
  | fuel + 1, c :: rest =>
    match tryPlaceholder (c :: rest) with
    | some (w, r2) => (replaceVar vars (String.mk w)).data ++ scanTemplate vars fuel r2
    | none => c :: scanTemplate vars fuel rest

/-- `_resolve_variables` on a string. -/
def resolveStr (vars : List (String × Value)) (s : String) : String :=
  String.mk (scanTemplate vars s.data.length s.data)

/-- `_resolve_variables` on an arbitrary value: non-strings pass through
unchanged. -/
def resolveVal (vars : List (String × Value)) : Value → Value
  | .vStr s => .vStr (resolveStr vars s)
  | v => v

/-! ### Small string helpers for the condition evaluator -/

/-- Whether `needle` starts `hay` (character lists). -/
def charsStartWith : List Char → List Char → Bool
  | [], _ => true
  | _ :: _, [] => false
  | a :: as, b :: bs => a == b && charsStartWith as bs

/-- Whether `needle` occurs in `hay` (character lists). -/
def charsContain (needle hay : List Char) : Bool :=
  match hay with
  | [] => charsStartWith needle []
  | _ :: rest => charsStartWith needle hay || charsContain needle rest

/-- Python `needle in hay` on strings. -/
def strContains (hay needle : String) : Bool :=
  charsContain needle.data hay.data

/-- Rational `10 ^ n`. -/
def pow10 (n : Nat) : Rat :=
  (10 : Rat) ^ n

/-- Python `float(s)` on decimal literals: optional sign, digits with an
optional fractional part, optional exponent, surrounding whitespace
stripped.  (`inf`, `nan` and underscore separators are outside the model.)
The value is returned as an exact rational. -/
def parseFloat (s : String) : Option Rat :=
  let cs0 := trimChars s.data
  let signed := match cs0 with
    | '-' :: r => (true, r)
    | '+' :: r => (false, r)
    | _ => (false, cs0)
  let neg := signed.1
  let ip := signed.2.takeWhile Char.isDigit
  let cs2 := signed.2.dropWhile Char.isDigit
  let dotted := match cs2 with
    | '.' :: r => (true, r)
    | _ => (false, cs2)
  let fp := if dotted.1 then dotted.2.takeWhile Char.isDigit else []
  let cs4 := if dotted.1 then dotted.2.dropWhile Char.isDigit else dotted.2
  if ip.isEmpty && fp.isEmpty then none
  else
    let mant : Rat := (digitsToNat ip : Rat) + (digitsToNat fp : Rat) / pow10 fp.length
    let m := if neg then -mant else mant
    match cs4 with
    | [] => some m
    | 'e' :: r =>
      parseFloatExp m r
    | 'E' :: r =>
      parseFloatExp m r
    | _ => none
where
  parseFloatExp (m : Rat) (r : List Char) : Option Rat :=
    let esigned := match r with
      | '-' :: rr => (true, rr)
      | '+' :: rr => (false, rr)
      | _ => (false, r)
    let eds := esigned.2.takeWhile Char.isDigit
    let rest := esigned.2.dropWhile Char.isDigit
    if eds.isEmpty || !rest.isEmpty then none
    else some (if esigned.1 then m / pow10 (digitsToNat eds) else m * pow10 (digitsToNat eds))

/-! ### The workflow data model -/

/-- A workflow node `\x7bid, type, data\x7d`.  A missing `type` key behaves
exactly like the empty string in every use the engine makes of it, so it is
modelled as `""`. -/
structure Node where
  id : String
  type : String
  data : List (String × Value)
  deriving Repr, DecidableEq

/-- A workflow edge; `data` holds the optional numeric branch discriminator
under the key `"condition"` (`0` = true branch, `1` = false branch). -/
structure Edge where
  source : String
  target : String
  data : List (String × Value)
  deriving Repr, DecidableEq

/-- A workflow definition as consumed by `WorkflowExecutor.__init__`. -/
structure Workflow where
  nodes : List Node
  edges : List Edge
  «variables» : List (String × Value)
  deriving Repr, DecidableEq

/-- `self.nodes = \x7bnode['id']: node for node in nodes\x7d`: a dict keyed by
id, last duplicate wins, first-insertion order kept. -/
def nodesDict (wf : Workflow) : List (String × Node) :=
  wf.nodes.foldl (fun acc n => dictInsert acc n.id n) []

def nodesGet (wf : Workflow) (nid : String) : Option Node :=
  dictGet (nodesDict wf) nid

/-- `get_start_node`: first node (in dict order) whose type is `"start"`. -/
def getStartNode (wf : Workflow) : Option Node :=
  ((nodesDict wf).map Prod.snd).find? (fun n => n.type == "start")

/-- `get_outgoing_edges`: all edges leaving a node, in definition order. -/
def getOutgoingEdges (wf : Workflow) (nid : String) : List Edge :=
  wf.edges.filter (fun e => e.source == nid)

/-- Python `edge_data.get('condition') == n` (numbers and booleans compare
numerically; everything else, including a missing key, compares unequal). -/
def condEqInt (v : Option Value) (n : Int) : Bool :=
  match v with
  | some (.vNum m) => m == n
  | some (.vBool b) => (if b then (1 : Int) else 0) == n
  | _ => false

/-- The branch-selection loop of `get_next_node`: first edge whose
`condition` discriminator equals `0` when the outcome is truthy, `1` when it
is falsy. -/
def findBranch (b : Bool) : List Edge → Option Edge
  | [] => none
  | e :: rest =>
    let c := dictGet e.data "condition"
    if b && condEqInt c 0 then some e
    else if !b && condEqInt c 1 then some e
    else findBranch b rest

/-- `get_next_node`.  The context parameter is accepted and ignored, as in
the source. -/
def getNextNode (wf : Workflow) (nid : String) (_ctx : List (String × Value))
    (condRes : Option Value) : Option Node :=
  match getOutgoingEdges wf nid with
  | [] => none
  | e0 :: rest =>
    let hit := match condRes with
      | some v => findBranch (pyTruthy v) (e0 :: rest)
      | none => none
    match hit with
    | some e => nodesGet wf e.target
    | none => nodesGet wf e0.target

/-! ### Evaluator results, context, and the HTTP environment -/

/-- `NodeExecutionResult`. -/
structure NodeExecutionResult where
  success : Bool
  output : Option Value := none
  error : Option String := none
  execution_time_ms : Int := 0
  deriving Repr, DecidableEq

/-- One entry of `context.execution_log`.  The wall-clock timestamp field of
the source is real time and is omitted from the model. -/
structure LogEntry where
  node_id : String
  node_type : String
  success : Bool
  output : Option Value
  error : Option String
  execution_time_ms : Int
  deriving Repr, DecidableEq

/-- `WorkflowContext`. -/
structure WorkflowContext where
  «variables» : List (String × Value) := []
  execution_log : List LogEntry := []
  current_node_id : Option String := none
  deriving Repr, DecidableEq

/-- An HTTP response as observed through `httpx`. -/
structure HttpResponse where
  status_code : Int
  headers : List (String × String)
  body : String
  deriving Repr, DecidableEq

/-- The HTTP side effect of a request node, made explicit: the call
`client.request(method, url, headers, content)` either returns a response or
raises (modelled as an error message). -/
def Env : Type :=
  String → Value → List (String × Value) → Option Value → Except String HttpResponse

instance {α β : Type} [DecidableEq α] [DecidableEq β] : DecidableEq (Except α β) :=
  fun a b =>
    match a, b with
    | .ok x, .ok y =>
      if h : x = y then isTrue (by rw [h])
      else isFalse (by intro hh; cases hh; exact h rfl)
    | .error x, .error y =>
      if h : x = y then isTrue (by rw [h])
      else isFalse (by intro hh; cases hh; exact h rfl)
    | .ok _, .error _ => isFalse (fun hh => Except.noConfusion hh)
    | .error _, .ok _ => isFalse (fun hh => Except.noConfusion hh)

/-- The dictionary returned by `execute`: `success`, optional `error` and
`failed_node_id` (an absent key and an explicit `None` value are both
modelled as `none`), the trace, and the final variable store. -/
structure RunResult where
  success : Bool
  error : Option String := none
  failed_node_id : Option String := none
  execution_log : List LogEntry := []
  output_variables : List (String × Value) := []
  deriving Repr, DecidableEq

/-! ### The condition evaluator `_execute_condition_node` -/

/-- `_execute_condition_node`: resolve both operands through `str()` and the
template resolver, evaluate the comparison, and always report success with
the boolean outcome in the output.  Unparsable `greater_than`/`less_than`
operands compare `false` (the `ValueError` handler). -/
def executeConditionNode (data : List (String × Value)) (vars : List (String × Value)) :
    NodeExecutionResult :=
  let condType := (dictGet data "condition_type").getD (.vStr "equals")
  let left := resolveStr vars (pyStr ((dictGet data "left").getD (.vStr "")))
  let right := resolveStr vars (pyStr ((dictGet data "right").getD (.vStr "")))
  let result : Bool :=
    if condType = .vStr "equals" then left == right
    else if condType = .vStr "not_equals" then left != right
    else if condType = .vStr "contains" then strContains left right
    else if condType = .vStr "greater_than" then
      match parseFloat left, parseFloat right with
      | some a, some b => decide (a > b)
      | _, _ => false
    else if condType = .vStr "less_than" then
      match parseFloat left, parseFloat right with
      | some a, some b => decide (a < b)
      | _, _ => false
    else if condType = .vStr "is_empty" then left == "" || strTrim left == ""
    else if condType = .vStr "is_not_empty" then left != "" && strTrim left != ""
    else false
  { success := true, output := some (.vObj [("condition_result", .vBool result)]) }

/-! ### The request evaluator `_execute_request_node` -/

/-- `node_data.get('method', 'GET').upper()`; a non-string raises
`AttributeError`, which the evaluator surfaces as a failed result. -/
def methodOf (data : List (String × Value)) : Except String String :=
  match dictGet data "method" with
  | none => .ok "GET"
  | some (.vStr s) => .ok (strUpper s)
  | some _ => .error "AttributeError: upper"

/-- The resolved request URL. -/
def urlOf (vars : List (String × Value)) (data : List (String × Value)) : Value :=
  resolveVal vars ((dictGet data "url").getD (.vStr ""))

/-- Build headers from the list form: entries with `key`, `value`,
`enabled`; disabled or empty-key entries are skipped; malformed entries
raise. -/
def listFormHeaders (vars : List (String × Value)) (items : List Value) :
    Except String (List (String × Value)) :=
  items.foldlM
    (fun acc item =>
      match item with
      | .vObj fs =>
        match (dictGet fs "key").getD (.vStr "") with
        | .vStr k0 =>
          let k := strTrim k0
          let v := (dictGet fs "value").getD (.vStr "")
          let enabled := (dictGet fs "enabled").getD (.vBool true)
          if k ≠ "" && pyTruthy enabled then .ok (dictInsert acc k (resolveVal vars v))
          else .ok acc
        | _ => .error "AttributeError: strip"
      | _ => .error "AttributeError: get")
    []

/-- Base headers: dict form resolves each value, list form goes through
`listFormHeaders`, anything else leaves the header map empty. -/
def baseHeaders (vars : List (String × Value)) (data : List (String × Value)) :
    Except String (List (String × Value)) :=
  match dictGet data "headers" with
  | none => .ok []
  | some (.vObj fs) => .ok (fs.map (fun kv => (kv.1, resolveVal vars kv.2)))
  | some (.vArr items) => listFormHeaders vars items
  | some _ => .ok []

/-- Apply `custom_headers` (override or add; no `enabled` flag here).
Iterating a non-list raises. -/
def applyCustomHeaders (vars : List (String × Value)) (data : List (String × Value))
    (hs : List (String × Value)) : Except String (List (String × Value)) :=
  match dictGet data "custom_headers" with
  | none => .ok hs
  | some (.vArr items) =>
    items.foldlM
      (fun acc item =>
        match item with
        | .vObj fs =>
          match (dictGet fs "key").getD (.vStr "") with
          | .vStr k0 =>
            let k := strTrim k0
            let v := (dictGet fs "value").getD (.vStr "")
            if k ≠ "" then .ok (dictInsert acc k (resolveVal vars v)) else .ok acc
          | _ => .error "AttributeError: strip"
        | _ => .error "AttributeError: get")
      hs
  | some _ => .error "TypeError: not iterable"

/-- The full header map built by `_execute_request_node` before the
`Content-Type` default is considered. -/
def requestHeadersOf (vars : List (String × Value)) (data : List (String × Value)) :
    Except String (List (String × Value)) :=
  match baseHeaders vars data with
  | .error e => .error e
  | .ok hs => applyCustomHeaders vars data hs

/-- The request body: a non-blank string `custom_body` wins and is resolved;
otherwise the node's `body`, resolved only when it is a truthy string. -/
def bodyOf (vars : List (String × Value)) (data : List (String × Value)) : Option Value :=
  match dictGet data "custom_body" with
  | some (.vStr s) =>
    if strTrim s ≠ "" then some (.vStr (resolveStr vars s))
    else bodyFallback vars data
  | _ => bodyFallback vars data
where
  bodyFallback (vars data : List (String × Value)) : Option Value :=
    match dictGet data "body" with
    | some (.vStr s) => if s ≠ "" then some (.vStr (resolveStr vars s)) else some (.vStr s)
    | other => other

/-- Python truthiness of an optional value (`None` is falsy). -/
def pyTruthyOpt : Option Value → Bool
  | none => false
  | some v => pyTruthy v

/-- The `Content-Type` default: added only when a truthy body is present and
neither the exact key `"Content-Type"` nor the exact key `"content-type"`
is in the header map. -/
def finalHeaders (hs : List (String × Value)) (body : Option Value) :
    List (String × Value) :=
  if pyTruthyOpt body && (dictGet hs "Content-Type").isNone
      && (dictGet hs "content-type").isNone then
    dictInsert hs "Content-Type" (.vStr "application/json")
  else hs

/-- `body if method in ['POST', 'PUT', 'PATCH'] else None`. -/
def contentOf (method : String) (body : Option Value) : Option Value :=
  if ["POST", "PUT", "PATCH"].contains method then body else none

/-- The response dictionary stored in the output and, when requested, in the
variable store.  Elapsed time is modelled as `0`. -/
def responseValue (resp : HttpResponse) (headers : List (String × Value)) (url : Value) :
    Value :=
  .vObj
    [("status_code", .vNum resp.status_code),
     ("headers", .vObj (resp.headers.map (fun kv => (kv.1, Value.vStr kv.2)))),
     ("body", .vStr resp.body),
     ("time_ms", .vNum 0),
     ("request_headers", .vObj headers),
     ("request_url", url)]

/-- `_execute_request_node`.  Success is `status_code < 400`; the response
dictionary is written to `output_variable` (when truthy) before the result
is returned, so the store is mutated even when the node fails.  Transport
errors and configuration type errors become failed results carrying the
error message. -/
def executeRequestNode (data : List (String × Value)) (ctx : WorkflowContext)
    (env : Env) : NodeExecutionResult × WorkflowContext :=
  match methodOf data with
  | .error e => ({ success := false, error := some e }, ctx)
  | .ok method =>
    match requestHeadersOf ctx.variables data with
    | .error e => ({ success := false, error := some e }, ctx)
    | .ok headers0 =>
      match env method (urlOf ctx.variables data)
          (finalHeaders headers0 (bodyOf ctx.variables data))
          (contentOf method (bodyOf ctx.variables data)) with
      | .error e => ({ success := false, error := some e }, ctx)
      | .ok resp =>
        let respData := responseValue resp
          (finalHeaders headers0 (bodyOf ctx.variables data)) (urlOf ctx.variables data)
        let ctx2 :=
          match dictGet data "output_variable" with
          | some ov =>
            if pyTruthy ov then
              { ctx with «variables» := dictInsert ctx.variables (pyStr ov) respData }
            else ctx
          | none => ctx
        ({ success := decide (resp.status_code < 400), output := some respData }, ctx2)

/-! ### The remaining evaluators -/

/-- The `end` evaluator: resolve the configured result variable through the
template syntax, falling back to a direct store lookup when resolution
returned the placeholder unchanged. -/
def executeEndNode (data : List (String × Value)) (ctx : WorkflowContext) :
    NodeExecutionResult :=
  let rvV := (dictGet data "result_variable").getD (.vStr "")
  let rlV := (dictGet data "result_label").getD (.vStr "Result")
  let base := [("message", Value.vStr "Workflow completed"), ("result_label", rlV)]
  if pyTruthy rvV then
    let rv := pyStr rvV
    let resolved := resolveStr ctx.variables (origText rv)
    let resultVal : Value :=
      if resolved = origText rv then (dictGet ctx.variables rv).getD .vNull
      else .vStr resolved
    { success := true,
      output := some (.vObj (base ++ [("result_variable", rvV), ("result", resultVal)])) }
  else { success := true, output := some (.vObj base) }

/-- The `delay` evaluator.  The sleep itself is real time and has no
observable effect in the model; a non-numeric `delay_ms` raises `TypeError`
on the division, surfaced as a failed result. -/
def executeDelayNode (data : List (String × Value)) : NodeExecutionResult :=
  match (dictGet data "delay_ms").getD (.vNum 1000) with
  | .vNum n =>
    { success := true, output := some (.vObj [("delayed_ms", .vNum n)]),
      execution_time_ms := n }
  | .vBool b =>
    { success := true, output := some (.vObj [("delayed_ms", .vBool b)]),
      execution_time_ms := if b then 1 else 0 }
  | _ => { success := false, error := some "TypeError: unsupported operand type(s) for /" }

/-- The `variable` evaluator.  Variable names are strings in the model
(`pyStr` of the configured name). -/
def executeVariableNode (data : List (String × Value)) (ctx : WorkflowContext) :
    NodeExecutionResult × WorkflowContext :=
  let nameV := (dictGet data "name").getD (.vStr "")
  let name := pyStr nameV
  let orig := (dictGet data "value").getD (.vStr "")
  let resolved := resolveVal ctx.variables orig
  let vars2 := dictInsert ctx.variables name resolved
  ({ success := true,
     output := some (.vObj
       [("variable", nameV), ("original", orig), ("resolved", resolved),
        ("available_vars", .vArr (vars2.map (fun kv => Value.vStr kv.1)))]) },
   { ctx with «variables» := vars2 })

/-- One line of `_execute_simple_script`: strip, skip comments and lines
without `=`, split at the first `=`, resolve the right-hand side, and store
it.  The accumulator is (results, variable store). -/
def execScriptLine (acc : List (String × Value) × List (String × Value)) (rawLine : String) :
    List (String × Value) × List (String × Value) :=
  let line := strTrim rawLine
  match splitFirst '=' line.data with
  | some (lhsCs, rhsCs) =>
    if charsStartWith ['#'] line.data then acc
    else
      let name := strTrim (String.mk lhsCs)
      let rhs := strTrim (String.mk rhsCs)
      let value := resolveStr acc.2 rhs
      (dictInsert acc.1 name (.vStr value), dictInsert acc.2 name (.vStr value))
  | none => acc

/-- The `script` evaluator (assignment lines only); a non-string script
raises on `.strip()`. -/
def executeScriptNode (data : List (String × Value)) (ctx : WorkflowContext) :
    NodeExecutionResult × WorkflowContext :=
  match (dictGet data "script").getD (.vStr "") with
  | .vStr script =>
    let p := ((splitOnChar '\n' (trimChars script.data)).map String.mk).foldl
      execScriptLine ([], ctx.variables)
    ({ success := true, output := some (.vObj p.1) }, { ctx with «variables» := p.2 })
  | _ => ({ success := false, error := some "AttributeError: strip" }, ctx)

/-- `execute_node`: dispatch on the node type, mirroring the source's
`elif` chain.  Unknown types fail. -/
def executeNode (node : Node) (ctx : WorkflowContext) (env : Env) :
    NodeExecutionResult × WorkflowContext :=
  let data := node.data
  if node.type = "start" then
    ({ success := true, output := some (.vObj [("message", .vStr "Workflow started")]) }, ctx)
  else if node.type = "end" then (executeEndNode data ctx, ctx)
  else if node.type = "request" then executeRequestNode data ctx env
  else if node.type = "condition" then (executeConditionNode data ctx.variables, ctx)
  else if node.type = "delay" then (executeDelayNode data, ctx)
  else if node.type = "variable" then executeVariableNode data ctx
  else if node.type = "script" then executeScriptNode data ctx
  else if node.type = "loop" then
    ({ success := true, output := some (.vObj [("loop_start", .vBool true)]) }, ctx)
  else ({ success := false, error := some ("Unknown node type: " ++ node.type) }, ctx)

/-! ### The run loop `execute` -/

/-- The log entry appended after each node evaluation.  With measured time
modelled as `0`, `result.execution_time_ms or execution_time` is just the
result's own field. -/
def mkLogEntry (node : Node) (res : NodeExecutionResult) : LogEntry :=
  { node_id := node.id, node_type := node.type, success := res.success,
    output := res.output, error := res.error,
    execution_time_ms := res.execution_time_ms }

/-- The condition outcome handed to the navigator: only for condition nodes
with a truthy output, the output's `condition_result` entry. -/
def condOutcomeOf (node : Node) (res : NodeExecutionResult) : Option Value :=
  if node.type = "condition" then
    match res.output with
    | some (.vObj fs) => if (Value.vObj fs) |> pyTruthy then dictGet fs "condition_result" else none
    | _ => none
  else none

/-- The `while` loop of `execute`, with the remaining iteration budget as
fuel.  Exhausted fuel (the 1000-iteration ceiling) and a missing next node
both fall through to the success result, as in the source. -/
def runLoop (wf : Workflow) (env : Env) : Option Node → WorkflowContext → Nat → RunResult
  | _, ctx, 0 =>
    { success := true, execution_log := ctx.execution_log, output_variables := ctx.variables }
  | none, ctx, _ + 1 =>
    { success := true, execution_log := ctx.execution_log, output_variables := ctx.variables }
  | some node, ctx, fuel + 1 =>
    let step := executeNode node { ctx with current_node_id := some node.id } env
    let res := step.1
    let ctx2 := { step.2 with execution_log := step.2.execution_log ++ [mkLogEntry node res] }
    if res.success = false then
      { success := false, error := res.error, failed_node_id := some node.id,
        execution_log := ctx2.execution_log, output_variables := ctx2.variables }
    else if node.type = "end" then
      { success := true, execution_log := ctx2.execution_log,
        output_variables := ctx2.variables }
    else
      runLoop wf env (getNextNode wf node.id ctx2.variables (condOutcomeOf node res)) ctx2 fuel

/-- `execute`: merge initial and input variables, fail immediately without a
start node, otherwise run the loop under the 1000-iteration ceiling. -/
def execute (wf : Workflow) (inputVars : List (String × Value)) (env : Env) : RunResult :=
  let ctx : WorkflowContext := { «variables» := dictMerge wf.variables inputVars }
  match getStartNode wf with
  | none =>
    { success := false, error := some "No start node found",
      execution_log := ctx.execution_log, output_variables := ctx.variables }
  | some startNode => runLoop wf env (some startNode) ctx 1000

/-! ### Derived predicates and concrete fixtures for the statements below -/

/-- Resolution of the path `a.b.c` misses: the root key is absent or holds
`None`, or the descent from the root finds no match or reaches a
non-indexable value (number, boolean, null, unparsable string). -/
def c1Miss (vars : List (String × Value)) : Bool :=
  match dictGet vars "a" with
  | none => true
  | some r => if r = .vNull then true else (getNested (some r) ["b", "c"]).isNone

/-- An environment with no reachable network: every HTTP call raises. -/
def envT : Env := fun _ _ _ _ => .error "no network"

/-- An environment whose endpoint always answers HTTP 500. -/
def env500 : Env := fun _ _ _ _ => .ok ⟨500, [("Server", "x")], "oops"⟩

/-- A workflow whose second node has an unknown type. -/
def wfBogus : Workflow :=
  { nodes := [⟨"s", "start", []⟩, ⟨"b", "bogus", []⟩],
    edges := [⟨"s", "b", []⟩], «variables» := [] }

/-- A workflow with no start node. -/
def wfNoStart : Workflow :=
  { nodes := [⟨"x", "variable", []⟩], edges := [], «variables» := [] }

/-- The looping variable node of `wfCycle`. -/
def nodeA : Node := ⟨"a", "variable", [("name", .vStr "n"), ("value", .vStr "")]⟩

/-- A workflow whose graph is a cycle with no terminating edge. -/
def wfCycle : Workflow :=
  { nodes := [⟨"s", "start", []⟩, nodeA],
    edges := [⟨"s", "a", []⟩, ⟨"a", "a", []⟩], «variables» := [] }

/-- Condition node data comparing the unparsable `"abc"` with `"1"`
numerically. -/
def dataGTabc : List (String × Value) :=
  [("condition_type", .vStr "greater_than"), ("left", .vStr "abc"), ("right", .vStr "1")]

/-- The condition node of `wfCond`. -/
def nodeCond : Node := ⟨"c", "condition", dataGTabc⟩

/-- A workflow reaching a `greater_than` condition with unparsable
operands. -/
def wfCond : Workflow :=
  { nodes := [⟨"s", "start", []⟩, nodeCond],
    edges := [⟨"s", "c", []⟩], «variables» := [] }

/-- A workflow with a condition node and explicit true/false branch edges
(`condition = 0` selects the true branch, `1` the false branch). -/
def wfBranch : Workflow :=
  { nodes :=
      [⟨"s", "start", []⟩,
       ⟨"c", "condition",
        [("condition_type", .vStr "equals"), ("left", .vStr "5"), ("right", .vStr "5")]⟩,
       ⟨"t", "end", [("result_label", .vStr "T")]⟩,
       ⟨"f", "end", [("result_label", .vStr "F")]⟩],
    edges :=
      [⟨"s", "c", []⟩, ⟨"c", "f", [("condition", .vNum 1)]⟩,
       ⟨"c", "t", [("condition", .vNum 0)]⟩],
    «variables» := [] }

/-- Request node data with an output variable. -/
def dataReq : List (String × Value) :=
  [("url", .vStr "http://x"), ("output_variable", .vStr "resp")]

/-- The request node of `wfReq`. -/
def nodeReq : Node := ⟨"r", "request", dataReq⟩

/-- A workflow whose second node issues an HTTP request and stores the
response. -/
def wfReq : Workflow :=
  { nodes := [⟨"s", "start", []⟩, nodeReq],
    edges := [⟨"s", "r", []⟩], «variables» := [] }

/-- Condition data: equals, both sides `"5"`. -/
def dataEq55 : List (String × Value) :=
  [("condition_type", .vStr "equals"), ("left", .vStr "5"), ("right", .vStr "5")]

/-- Condition data: equals, `"5"` versus `"6"`. -/
def dataEq56 : List (String × Value) :=
  [("condition_type", .vStr "equals"), ("left", .vStr "5"), ("right", .vStr "6")]

/-- Request node data with a body and a `Content-Type` header configured
under the casing `CONTENT-TYPE`. -/
def dataC9 : List (String × Value) :=
  [("headers", .vObj [("CONTENT-TYPE", .vStr "text/plain")]), ("body", .vStr "x")]

/-- A store where `a.b.c` resolves to the string `"tok"`. -/
def varsW : List (String × Value) :=
  [("a", .vObj [("b", .vObj [("c", .vStr "tok")])])]

/-! ## Helper lemmas -/

lemma pyNullToNone_some {v : Value} (h : v ≠ Value.vNull) :
    pyNullToNone (some v) = some v := by
  cases v
  · exact absurd rfl h
  all_goals rfl

/-- Scanning the single-placeholder template is exactly one replacement. -/
lemma resolve_abc (vars : List (String × Value)) :
    resolveStr vars "\x7b\x7ba.b.c\x7d\x7d" = replaceVar vars "a.b.c" := by
  show String.mk ((replaceVar vars "a.b.c").data ++ []) = replaceVar vars "a.b.c"
  rw [List.append_nil]

/-- `replace_var` on the concrete path `a.b.c`, unfolded. -/
lemma replaceVar_abc (vars : List (String × Value)) :
    replaceVar vars "a.b.c" =
      (match dictGet vars "a" with
       | some rootVal =>
         if rootVal = Value.vNull then origText "a.b.c"
         else
           match getNested (some rootVal) ["b", "c"] with
           | some v => stringOfValue v
           | none => origText "a.b.c"
       | none => origText "a.b.c") := rfl

/-! ## C1 -/

/-- C1: template resolution of the multi-segment placeholder `a.b.c` is
correct and is the identity on misses.  If the store maps `a` to an object
containing `b` whose object value contains a non-null `c`, resolution of
the placeholder string yields the stringified (JSON-serialized for
objects/arrays) value of `c`; whenever the root is absent/null or the
descent finds no match or a non-indexable value, the output equals the
input string unchanged. -/
theorem claim_C1_template_resolution (vars : List (String × Value)) :
    (∀ A B v, dictGet vars "a" = some (.vObj A) →
       dictGet A "b" = some (.vObj B) →
       dictGet B "c" = some v → v ≠ .vNull →
       resolveStr vars "\x7b\x7ba.b.c\x7d\x7d" = stringOfValue v) ∧
    (c1Miss vars = true →
       resolveStr vars "\x7b\x7ba.b.c\x7d\x7d" = "\x7b\x7ba.b.c\x7d\x7d") := by
  constructor
  · intro A B v hA hB hC hv
    rw [resolve_abc, replaceVar_abc, hA]
    have h1 : getNested (some (Value.vObj A)) ["b", "c"] = some v := by
      show getNested (pyNullToNone (dictGet A "b")) ["c"] = some v
      rw [hB]
      show getNested (pyNullToNone (dictGet B "c")) [] = some v
      rw [hC, pyNullToNone_some hv]
      rfl
    show (if Value.vObj A = Value.vNull then origText "a.b.c"
          else match getNested (some (Value.vObj A)) ["b", "c"] with
               | some v2 => stringOfValue v2
               | none => origText "a.b.c") = stringOfValue v
    rw [if_neg (fun hh => Value.noConfusion hh), h1]
  · intro h
    rw [resolve_abc, replaceVar_abc]
    unfold c1Miss at h
    cases hA : dictGet vars "a" with
    | none => rfl
    | some r =>
      rw [hA] at h
      have h2 : (if r = Value.vNull then true
                 else (getNested (some r) ["b", "c"]).isNone) = true := h
      show (if r = Value.vNull then origText "a.b.c"
            else match getNested (some r) ["b", "c"] with
                 | some v2 => stringOfValue v2
                 | none => origText "a.b.c") = "\x7b\x7ba.b.c\x7d\x7d"
      by_cases hr : r = Value.vNull
      · rw [if_pos hr]; rfl
      · rw [if_neg hr] at h2
        rw [if_neg hr, Option.isNone_iff_eq_none.mp h2]
        rfl

/-- Witness for C1 at concrete stores: a hit yielding `"tok"` and a miss
returning the placeholder unchanged. -/
theorem claim_C1_witness :
    (resolveStr varsW "\x7b\x7ba.b.c\x7d\x7d" = "tok") ∧
    (c1Miss [] = true ∧ resolveStr [] "\x7b\x7ba.b.c\x7d\x7d" = "\x7b\x7ba.b.c\x7d\x7d") := by
  refine ⟨?_, by decide, ?_⟩
  · exact ((claim_C1_template_resolution varsW).1
      [("b", .vObj [("c", .vStr "tok")])] [("c", .vStr "tok")] (.vStr "tok")
      (by decide) (by decide) (by decide) (by decide)).trans (by decide)
  · exact (claim_C1_template_resolution []).2 (by decide)

/-! ## Helper lemmas about the run loop -/

lemma dictGet_dictInsert_self {α : Type} (l : List (String × α)) (k : String) (v : α) :
    dictGet (dictInsert l k v) k = some v := by
  induction l with
  | nil => simp [dictGet, dictInsert]
  | cons p rest ih =>
    obtain ⟨k2, v2⟩ := p
    by_cases hk : k2 = k
    · subst hk; simp [dictGet, dictInsert]
    · simp [dictGet, dictInsert, hk, ih]

/-- The request evaluator never touches the execution log. -/
lemma executeRequestNode_log (data : List (String × Value)) (ctx : WorkflowContext)
    (env : Env) : (executeRequestNode data ctx env).2.execution_log = ctx.execution_log := by
  rcases hm : methodOf data with e | m
  · simp [executeRequestNode, hm]
  rcases hh : requestHeadersOf ctx.variables data with e | hs
  · simp [executeRequestNode, hm, hh]
  rcases he : env m (urlOf ctx.variables data) (finalHeaders hs (bodyOf ctx.variables data))
      (contentOf m (bodyOf ctx.variables data)) with e | resp
  · simp [executeRequestNode, hm, hh, he]
  rcases ho : dictGet data "output_variable" with _ | ov
  · simp [executeRequestNode, hm, hh, he, ho]
  by_cases ht : pyTruthy ov = true <;> simp [executeRequestNode, hm, hh, he, ho, ht]

/-- No evaluator touches the execution log: only the run loop appends. -/
lemma executeNode_log (node : Node) (ctx : WorkflowContext) (env : Env) :
    (executeNode node ctx env).2.execution_log = ctx.execution_log := by
  unfold executeNode
  split_ifs
  · rfl
  · rfl
  · exact executeRequestNode_log node.data ctx env
  · rfl
  · rfl
  · rfl
  · rcases h : dictGet node.data "script" with _ | v
    · simp [executeScriptNode, h]
    · rcases v with _ | b | n | sc | l | fs <;> simp [executeScriptNode, h]
  · rfl
  · rfl

/-- The one-step unfolding of the run loop. -/
lemma runLoop_succ (wf : Workflow) (env : Env) (node : Node) (ctx : WorkflowContext)
    (n : Nat) :
    runLoop wf env (some node) ctx (n + 1) =
      (if (executeNode node { ctx with current_node_id := some node.id } env).1.success = false
       then
        { success := false,
          error := (executeNode node { ctx with current_node_id := some node.id } env).1.error,
          failed_node_id := some node.id,
          execution_log :=
            (executeNode node { ctx with current_node_id := some node.id } env).2.execution_log
              ++ [mkLogEntry node (executeNode node { ctx with current_node_id := some node.id } env).1],
          output_variables :=
            (executeNode node { ctx with current_node_id := some node.id } env).2.variables }
       else if node.type = "end" then
        { success := true,
          execution_log :=
            (executeNode node { ctx with current_node_id := some node.id } env).2.execution_log
              ++ [mkLogEntry node (executeNode node { ctx with current_node_id := some node.id } env).1],
          output_variables :=
            (executeNode node { ctx with current_node_id := some node.id } env).2.variables }
       else
        runLoop wf env
          (getNextNode wf node.id
            (executeNode node { ctx with current_node_id := some node.id } env).2.variables
            (condOutcomeOf node
              (executeNode node { ctx with current_node_id := some node.id } env).1))
          { (executeNode node { ctx with current_node_id := some node.id } env).2 with
            execution_log :=
              (executeNode node { ctx with current_node_id := some node.id } env).2.execution_log
                ++ [mkLogEntry node
                  (executeNode node { ctx with current_node_id := some node.id } env).1] }
          n) := rfl

/-- The terminal results of the run loop: no current node or exhausted fuel
yield the success record over the current context. -/
lemma runLoop_stop (wf : Workflow) (env : Env) (ctx : WorkflowContext) :
    (∀ fuel, runLoop wf env none ctx fuel =
      { success := true, execution_log := ctx.execution_log,
        output_variables := ctx.variables }) ∧
    (∀ cur, runLoop wf env cur ctx 0 =
      { success := true, execution_log := ctx.execution_log,
        output_variables := ctx.variables }) := by
  constructor
  · intro fuel; cases fuel <;> rfl
  · intro cur; cases cur <;> rfl

/-- The loop invariant behind C2: starting from an all-successful trace,
every entry of the returned trace except the last is successful; a failing
last entry is mirrored in the failure result; a successful run has an
all-successful trace; and a failed run ends in a failing entry. -/
lemma runLoop_inv (wf : Workflow) (env : Env) :
    ∀ (fuel : Nat) (cur : Option Node) (ctx : WorkflowContext),
      (∀ e ∈ ctx.execution_log, e.success = true) →
      ((∀ e ∈ (runLoop wf env cur ctx fuel).execution_log.dropLast, e.success = true) ∧
       (∀ e, (runLoop wf env cur ctx fuel).execution_log.getLast? = some e →
          e.success = false →
          (runLoop wf env cur ctx fuel).success = false ∧
          (runLoop wf env cur ctx fuel).error = e.error ∧
          (runLoop wf env cur ctx fuel).failed_node_id = some e.node_id) ∧
       ((runLoop wf env cur ctx fuel).success = true →
          ∀ e ∈ (runLoop wf env cur ctx fuel).execution_log, e.success = true) ∧
       ((runLoop wf env cur ctx fuel).success = false →
          ∃ e, (runLoop wf env cur ctx fuel).execution_log.getLast? = some e ∧
            e.success = false)) := by
  intro fuel
  induction fuel with
  | zero =>
    intro cur ctx hctx
    rw [(runLoop_stop wf env ctx).2 cur]
    refine ⟨fun e he => hctx e (List.dropLast_subset _ he), ?_, fun _ => hctx, ?_⟩
    · intro e hlast hfail
      rw [hctx e (List.mem_of_mem_getLast? hlast)] at hfail
      exact Bool.noConfusion hfail
    · intro h; exact Bool.noConfusion h
  | succ n ih =>
    intro cur ctx hctx
    cases cur with
    | none =>
      rw [(runLoop_stop wf env ctx).1 (n + 1)]
      refine ⟨fun e he => hctx e (List.dropLast_subset _ he), ?_, fun _ => hctx, ?_⟩
      · intro e hlast hfail
        rw [hctx e (List.mem_of_mem_getLast? hlast)] at hfail
        exact Bool.noConfusion hfail
      · intro h; exact Bool.noConfusion h
    | some node =>
      have hl : (executeNode node { ctx with current_node_id := some node.id } env).2.execution_log
          = ctx.execution_log := executeNode_log _ _ _
      set step := executeNode node { ctx with current_node_id := some node.id } env with hstep
      set entry := mkLogEntry node step.1 with hentry
      have hes : entry.success = step.1.success := rfl
      by_cases hres : step.1.success = false
      · rw [runLoop_succ, if_pos hres]
        dsimp only
        rw [hl]
        refine ⟨?_, ?_, ?_, ?_⟩
        · intro e he
          rw [List.dropLast_concat] at he
          exact hctx e he
        · intro e hlast _
          rw [List.getLast?_concat] at hlast
          cases hlast
          exact ⟨rfl, rfl, rfl⟩
        · intro h; exact Bool.noConfusion h
        · exact fun _ => ⟨entry, List.getLast?_concat _, hes.trans hres⟩
      · have hres2 : step.1.success = true := by
          revert hres; cases step.1.success <;> simp
        have hctx2 : ∀ e ∈ ctx.execution_log ++ [entry], e.success = true := by
          intro e he
          rcases List.mem_append.mp he with h | h
          · exact hctx e h
          · rw [List.mem_singleton.mp h]
            exact hes.trans hres2
        by_cases hend : node.type = "end"
        · rw [runLoop_succ, if_neg hres, if_pos hend]
          dsimp only
          rw [hl]
          refine ⟨?_, ?_, ?_, ?_⟩
          · intro e he
            rw [List.dropLast_concat] at he
            exact hctx e he
          · intro e hlast hfail
            rw [List.getLast?_concat] at hlast
            cases hlast
            rw [hes.trans hres2] at hfail
            exact Bool.noConfusion hfail
          · intro _; exact hctx2
          · intro h; exact Bool.noConfusion h
        · rw [runLoop_succ, if_neg hres, if_neg hend]
          refine ih _ _ ?_
          dsimp only
          rw [hl]
          exact hctx2

/-! ## C2 -/

/-- C2: any node-evaluator failure is fatal to the whole run.  In every
result of `execute`: all trace entries before the last are successful (no
node runs after a failure); a failing last entry is mirrored as
`success = false` with that evaluator's error and that node's id as
`failed_node_id`, the full trace and the variable snapshot being the
returned `execution_log`/`output_variables`; a successful run has an
all-successful trace; and a failed run with a nonempty trace ends in the
failing entry. -/
theorem claim_C2_failure_is_fatal (wf : Workflow) (inputVars : List (String × Value))
    (env : Env) :
    (∀ e ∈ (execute wf inputVars env).execution_log.dropLast, e.success = true) ∧
    (∀ e, (execute wf inputVars env).execution_log.getLast? = some e →
       e.success = false →
       (execute wf inputVars env).success = false ∧
       (execute wf inputVars env).error = e.error ∧
       (execute wf inputVars env).failed_node_id = some e.node_id) ∧
    ((execute wf inputVars env).success = true →
       ∀ e ∈ (execute wf inputVars env).execution_log, e.success = true) ∧
    ((execute wf inputVars env).success = false →
       (execute wf inputVars env).execution_log ≠ [] →
       ∃ e, (execute wf inputVars env).execution_log.getLast? = some e ∧
         e.success = false) := by
  unfold execute
  cases hs : getStartNode wf with
  | none =>
    dsimp only
    exact ⟨fun e he => absurd he (by simp), fun e he => absurd he (by simp),
      fun h => Bool.noConfusion h, fun _ h => absurd rfl h⟩
  | some startNode =>
    dsimp only
    have h := runLoop_inv wf env 1000 (some startNode)
      { «variables» := dictMerge wf.variables inputVars } (by intro e he; cases he)
    exact ⟨h.1, h.2.1, h.2.2.1, fun hf _ => h.2.2.2 hf⟩

/-- Witness for C2: a concrete run failing at an unknown-type node mirrors
the failing entry. -/
theorem claim_C2_witness :
    (execute wfBogus [] envT).success = false ∧
    (execute wfBogus [] envT).error = some "Unknown node type: bogus" ∧
    (execute wfBogus [] envT).failed_node_id = some "b" := by
  have h := (claim_C2_failure_is_fatal wfBogus [] envT).2.1
    { node_id := "b", node_type := "bogus", success := false, output := none,
      error := some "Unknown node type: bogus", execution_time_ms := 0 }
    (by decide) (by decide)
  exact ⟨h.1, h.2.1, h.2.2⟩

/-! ## C3 -/

/-- The branch-selection loop is `find?` over the branch predicate. -/
lemma findBranch_find (b : Bool) (l : List Edge) :
    findBranch b l =
      l.find? (fun e => condEqInt (dictGet e.data "condition") (if b then 0 else 1)) := by
  induction l with
  | nil => cases b <;> rfl
  | cons e rest ih =>
    cases b <;>
      by_cases hc1 : condEqInt (dictGet e.data "condition") 1 = true <;>
      by_cases hc0 : condEqInt (dictGet e.data "condition") 0 = true <;>
      simp [findBranch, List.find?, ih, hc1, hc0]

/-- C3: graph navigation.  With a true/false condition outcome supplied,
`get_next_node` returns the stored node for the target of the first edge
whose branch discriminator matches the outcome; with no matching branch it
falls back to the first outgoing edge; with no outcome it always takes the
first outgoing edge; with no outgoing edges it returns no next node, and the
run loop then stops with `success = true`. -/
theorem claim_C3_navigation (wf : Workflow) (nid : String) (vars : List (String × Value))
    (b : Bool) :
    (getOutgoingEdges wf nid = [] → ∀ condRes, getNextNode wf nid vars condRes = none) ∧
    (∀ e, (getOutgoingEdges wf nid).find?
        (fun e => condEqInt (dictGet e.data "condition") (if b then 0 else 1)) = some e →
      getNextNode wf nid vars (some (.vBool b)) = nodesGet wf e.target) ∧
    ((getOutgoingEdges wf nid).find?
        (fun e => condEqInt (dictGet e.data "condition") (if b then 0 else 1)) = none →
      ∀ e0 rest, getOutgoingEdges wf nid = e0 :: rest →
      getNextNode wf nid vars (some (.vBool b)) = nodesGet wf e0.target) ∧
    (∀ e0 rest, getOutgoingEdges wf nid = e0 :: rest →
      getNextNode wf nid vars none = nodesGet wf e0.target) ∧
    (∀ (env : Env) (ctx : WorkflowContext) (fuel : Nat),
      runLoop wf env none ctx fuel =
        { success := true, execution_log := ctx.execution_log,
          output_variables := ctx.variables }) := by
  refine ⟨?_, ?_, ?_, ?_, fun env ctx fuel => (runLoop_stop wf env ctx).1 fuel⟩
  · intro h condRes
    simp [getNextNode, h]
  · intro e hf
    cases hout : getOutgoingEdges wf nid with
    | nil => rw [hout] at hf; cases hf
    | cons e0 rest =>
      rw [hout] at hf
      rw [← findBranch_find] at hf
      simp only [getNextNode, hout]
      show (match findBranch (pyTruthy (.vBool b)) (e0 :: rest) with
            | some e2 => nodesGet wf e2.target
            | none => nodesGet wf e0.target) = nodesGet wf e.target
      have hpy : pyTruthy (.vBool b) = b := rfl
      rw [hpy, hf]
  · intro hf e0 rest hout
    rw [hout] at hf
    rw [← findBranch_find] at hf
    simp only [getNextNode, hout]
    show (match findBranch (pyTruthy (.vBool b)) (e0 :: rest) with
          | some e2 => nodesGet wf e2.target
          | none => nodesGet wf e0.target) = nodesGet wf e0.target
    have hpy : pyTruthy (.vBool b) = b := rfl
    rw [hpy, hf]
  · intro e0 rest hout
    simp [getNextNode, hout]

/-- Witness for C3 on a concrete branching workflow: the true edge, the
false edge, the unconditional first edge, and the no-edges case. -/
theorem claim_C3_witness :
    getNextNode wfBranch "c" [] (some (.vBool true)) =
      some ⟨"t", "end", [("result_label", .vStr "T")]⟩ ∧
    getNextNode wfBranch "c" [] (some (.vBool false)) =
      some ⟨"f", "end", [("result_label", .vStr "F")]⟩ ∧
    getNextNode wfBranch "s" [] none =
      some ⟨"c", "condition",
        [("condition_type", .vStr "equals"), ("left", .vStr "5"), ("right", .vStr "5")]⟩ ∧
    getNextNode wfBranch "t" [] none = none := by
  refine ⟨?_, ?_, ?_, ?_⟩
  · exact ((claim_C3_navigation wfBranch "c" [] true).2.1
      ⟨"c", "t", [("condition", .vNum 0)]⟩ (by decide)).trans (by decide)
  · exact ((claim_C3_navigation wfBranch "c" [] false).2.1
      ⟨"c", "f", [("condition", .vNum 1)]⟩ (by decide)).trans (by decide)
  · exact ((claim_C3_navigation wfBranch "s" [] true).2.2.2.1
      ⟨"s", "c", []⟩ [] (by decide)).trans (by decide)
  · exact (claim_C3_navigation wfBranch "t" [] true).1 (by decide) none

/-! ## C4 -/

/-- Each loop iteration appends exactly one entry, so the trace grows by at
most the fuel. -/
lemma runLoop_log_le (wf : Workflow) (env : Env) :
    ∀ (fuel : Nat) (cur : Option Node) (ctx : WorkflowContext),
      (runLoop wf env cur ctx fuel).execution_log.length ≤
        ctx.execution_log.length + fuel := by
  intro fuel
  induction fuel with
  | zero =>
    intro cur ctx
    rw [(runLoop_stop wf env ctx).2 cur]
    simp
  | succ n ih =>
    intro cur ctx
    cases cur with
    | none =>
      rw [(runLoop_stop wf env ctx).1 (n + 1)]
      exact Nat.le_add_right _ _
    | some node =>
      rw [runLoop_succ]
      split_ifs with h1 h2
      · dsimp only
        simp [List.length_append, executeNode_log]
      · dsimp only
        simp [List.length_append, executeNode_log]
      · refine le_trans (ih _ _) ?_
        dsimp only
        simp [List.length_append, executeNode_log]
        omega

/-- On the concrete cycle workflow, every loop iteration from the looping
node appends exactly one entry and succeeds, consuming all remaining fuel. -/
lemma runLoop_cycle (env : Env) :
    ∀ (fuel : Nat) (ctx : WorkflowContext),
      (runLoop wfCycle env (some nodeA) ctx fuel).execution_log.length =
        ctx.execution_log.length + fuel ∧
      (runLoop wfCycle env (some nodeA) ctx fuel).success = true := by
  intro fuel
  induction fuel with
  | zero =>
    intro ctx
    rw [(runLoop_stop wfCycle env ctx).2 _]
    exact ⟨rfl, rfl⟩
  | succ n ih =>
    intro ctx
    rw [runLoop_succ]
    have h1 : (executeNode nodeA { ctx with current_node_id := some nodeA.id } env).1.success
        = true := rfl
    rw [if_neg (by rw [h1]; exact fun hh => Bool.noConfusion hh)]
    rw [if_neg (by decide : ¬nodeA.type = "end")]
    have hnext : getNextNode wfCycle nodeA.id
        (executeNode nodeA { ctx with current_node_id := some nodeA.id } env).2.variables
        (condOutcomeOf nodeA
          (executeNode nodeA { ctx with current_node_id := some nodeA.id } env).1)
        = some nodeA := by rfl
    rw [hnext]
    refine ⟨?_, (ih _).2⟩
    rw [(ih _).1]
    dsimp only
    simp [List.length_append, executeNode_log]
    omega

/-- C4: the execution trace never exceeds the 1000-iteration ceiling, and a
graph containing a cycle with no terminating edge executes exactly up to the
ceiling and then the loop stops (with the success record) rather than
running forever. -/
theorem claim_C4_iteration_ceiling :
    (∀ (wf : Workflow) (inputVars : List (String × Value)) (env : Env),
      (execute wf inputVars env).execution_log.length ≤ 1000) ∧
    (∀ env : Env,
      (execute wfCycle [] env).execution_log.length = 1000 ∧
      (execute wfCycle [] env).success = true) := by
  constructor
  · intro wf inputVars env
    unfold execute
    cases hs : getStartNode wf with
    | none => simp
    | some startNode =>
      dsimp only
      simpa using runLoop_log_le wf env 1000 (some startNode)
        { «variables» := dictMerge wf.variables inputVars }
  · intro env
    have hstart : getStartNode wfCycle = some ⟨"s", "start", []⟩ := by decide
    have hexec : execute wfCycle [] env =
        runLoop wfCycle env (some ⟨"s", "start", []⟩) { «variables» := [] } (999 + 1) := by
      unfold execute
      rw [hstart]
      rfl
    rw [hexec, runLoop_succ]
    rw [if_neg (by intro hh; exact Bool.noConfusion hh :
      ¬(executeNode ⟨"s", "start", []⟩
          { «variables» := [], current_node_id := some "s" } env).1.success = false)]
    rw [if_neg (by decide : ¬(Node.mk "s" "start" []).type = "end")]
    rw [show getNextNode wfCycle (Node.mk "s" "start" []).id
        (executeNode ⟨"s", "start", []⟩
          { «variables» := [], current_node_id := some "s" } env).2.variables
        (condOutcomeOf ⟨"s", "start", []⟩
          (executeNode ⟨"s", "start", []⟩
            { «variables» := [], current_node_id := some "s" } env).1) = some nodeA from rfl]
    refine ⟨?_, (runLoop_cycle env 999 _).2⟩
    rw [(runLoop_cycle env 999 _).1]
    rfl

/-! ## C5 -/

lemma mem_dictInsert {α : Type} {l : List (String × α)} {k : String} {v : α}
    {x : String × α} (hx : x ∈ dictInsert l k v) : x = (k, v) ∨ x ∈ l := by
  induction l with
  | nil => simpa [dictInsert] using hx
  | cons p rest ih =>
    obtain ⟨k2, v2⟩ := p
    by_cases hk : k2 = k
    · rw [show dictInsert ((k2, v2) :: rest) k v = (k, v) :: rest by
        simp [dictInsert, hk]] at hx
      rcases List.mem_cons.mp hx with h | h
      · exact Or.inl h
      · exact Or.inr (List.mem_cons_of_mem _ h)
    · rw [show dictInsert ((k2, v2) :: rest) k v = (k2, v2) :: dictInsert rest k v by
        simp [dictInsert, hk]] at hx
      rcases List.mem_cons.mp hx with h | h
      · exact Or.inr (by rw [h]; exact List.mem_cons_self _ _)
      · rcases ih h with h2 | h2
        · exact Or.inl h2
        · exact Or.inr (List.mem_cons_of_mem _ h2)

/-- Every value of the node dictionary is one of the definition's nodes. -/
lemma nodesDict_values_mem (wf : Workflow) : ∀ p ∈ nodesDict wf, p.2 ∈ wf.nodes := by
  unfold nodesDict
  suffices h : ∀ (l : List Node) (acc : List (String × Node)) p,
      p ∈ l.foldl (fun acc n => dictInsert acc n.id n) acc → p.2 ∈ l ∨ p ∈ acc by
    intro p hp
    rcases h wf.nodes [] p hp with h1 | h1
    · exact h1
    · cases h1
  intro l
  induction l with
  | nil => intro acc p hp; exact Or.inr hp
  | cons n t ih =>
    intro acc p hp
    rw [List.foldl_cons] at hp
    rcases ih _ p hp with h1 | h1
    · exact Or.inl (List.mem_cons_of_mem _ h1)
    · rcases mem_dictInsert h1 with h2 | h2
      · left
        rw [h2]
        exact List.mem_cons_self _ _
      · exact Or.inr h2

/-- Without a node of type `start` in the definition, `get_start_node` finds
nothing. -/
lemma getStartNode_eq_none (wf : Workflow) (h : ∀ n ∈ wf.nodes, n.type ≠ "start") :
    getStartNode wf = none := by
  unfold getStartNode
  rw [List.find?_eq_none]
  intro n hn
  rcases List.mem_map.mp hn with ⟨p, hp, rfl⟩
  simpa using h p.2 (nodesDict_values_mem wf p hp)

/-- C5: for every workflow definition containing no node of type `start`,
`execute` returns `success = false` with the descriptive error and an empty
execution trace (no node is evaluated), together with the merged input
variables. -/
theorem claim_C5_no_start_node (wf : Workflow) (inputVars : List (String × Value))
    (env : Env) (h : ∀ n ∈ wf.nodes, n.type ≠ "start") :
    execute wf inputVars env =
      { success := false, error := some "No start node found", failed_node_id := none,
        execution_log := [], output_variables := dictMerge wf.variables inputVars } := by
  unfold execute
  rw [getStartNode_eq_none wf h]

/-- Witness for C5 at a concrete start-less workflow. -/
theorem claim_C5_witness :
    (∀ n ∈ wfNoStart.nodes, n.type ≠ "start") ∧
    execute wfNoStart [("k", .vStr "v")] envT =
      { success := false, error := some "No start node found", failed_node_id := none,
        execution_log := [], output_variables := [("k", .vStr "v")] } := by
  refine ⟨by decide, ?_⟩
  exact (claim_C5_no_start_node wfNoStart [("k", .vStr "v")] envT (by decide)).trans
    (by decide)

/-! ## C6 -/

/-- C6: the condition evaluator always returns `success = true` and carries
its boolean outcome under `condition_result` in the output; with
`condition_type = equals` and both operands resolving to `"5"` the outcome
is `true`, and with right `"6"` it is `false`. -/
theorem claim_C6_condition_always_succeeds :
    (∀ (data : List (String × Value)) (vars : List (String × Value)),
       (executeConditionNode data vars).success = true) ∧
    (∀ (data : List (String × Value)) (vars : List (String × Value)),
       ∃ b, (executeConditionNode data vars).output =
         some (.vObj [("condition_result", .vBool b)])) ∧
    (executeConditionNode dataEq55 []).output =
      some (.vObj [("condition_result", .vBool true)]) ∧
    (executeConditionNode dataEq56 []).output =
      some (.vObj [("condition_result", .vBool false)]) := by
  refine ⟨fun data vars => rfl, fun data vars => ⟨_, rfl⟩, by decide, by decide⟩

/-! ## C7 -/

/-- The condition evaluator on `greater_than`/`less_than` with an operand
that does not parse as a float: the comparison is `false` and the evaluator
still succeeds. -/
lemma condNode_parsefail (data vars : List (String × Value))
    (hty : (dictGet data "condition_type").getD (.vStr "equals") = .vStr "greater_than" ∨
           (dictGet data "condition_type").getD (.vStr "equals") = .vStr "less_than")
    (hparse :
      parseFloat (resolveStr vars (pyStr ((dictGet data "left").getD (.vStr "")))) = none ∨
      parseFloat (resolveStr vars (pyStr ((dictGet data "right").getD (.vStr "")))) = none) :
    executeConditionNode data vars =
      { success := true, output := some (.vObj [("condition_result", .vBool false)]) } := by
  unfold executeConditionNode
  rcases hty with hty | hty <;> rw [hty] <;>
    rcases hpl : parseFloat (resolveStr vars (pyStr ((dictGet data "left").getD (.vStr ""))))
      with _ | a <;>
    rcases hpr : parseFloat (resolveStr vars (pyStr ((dictGet data "right").getD (.vStr ""))))
      with _ | b <;>
    simp_all

/-- C7: numeric comparisons degrade to false on unparsable operands; no
error is raised (the evaluator succeeds with `condition_result = false`). -/
theorem claim_C7_numeric_parse_failure (data vars : List (String × Value))
    (hty : (dictGet data "condition_type").getD (.vStr "equals") = .vStr "greater_than" ∨
           (dictGet data "condition_type").getD (.vStr "equals") = .vStr "less_than")
    (hparse :
      parseFloat (resolveStr vars (pyStr ((dictGet data "left").getD (.vStr "")))) = none ∨
      parseFloat (resolveStr vars (pyStr ((dictGet data "right").getD (.vStr "")))) = none) :
    executeConditionNode data vars =
      { success := true, output := some (.vObj [("condition_result", .vBool false)]) } :=
  condNode_parsefail data vars hty hparse

/-- Witness for C7: `greater_than` with left `"abc"` and right `"1"`. -/
theorem claim_C7_witness :
    parseFloat "abc" = none ∧
    executeConditionNode dataGTabc [] =
      { success := true, output := some (.vObj [("condition_result", .vBool false)]) } := by
  refine ⟨by decide, ?_⟩
  exact claim_C7_numeric_parse_failure dataGTabc [] (Or.inl (by decide)) (Or.inl (by decide))

/-! ## C8 -/

/-- Counterexample to C8: a run reaching a `greater_than` condition whose
operands do not parse completes with `success = true`, no error and no
`failed_node_id` — the run does not halt at that node. -/
theorem claim_C8_counterexample :
    (execute wfCond [] envT).success = true ∧
    (execute wfCond [] envT).error = none ∧
    (execute wfCond [] envT).failed_node_id = none := by
  refine ⟨by decide, by decide, by decide⟩

/-- C8 as amended: a malformed numeric comparison operand is not a per-node
evaluation error.  The condition evaluator reports `success = true` with
`condition_result = false`, and the run loop does not halt at that node: it
appends the entry and continues with the navigator's false branch. -/
theorem claim_C8_amended_not_an_error (data vars : List (String × Value))
    (hty : (dictGet data "condition_type").getD (.vStr "equals") = .vStr "greater_than" ∨
           (dictGet data "condition_type").getD (.vStr "equals") = .vStr "less_than")
    (hparse :
      parseFloat (resolveStr vars (pyStr ((dictGet data "left").getD (.vStr "")))) = none ∨
      parseFloat (resolveStr vars (pyStr ((dictGet data "right").getD (.vStr "")))) = none) :
    (executeConditionNode data vars).success = true ∧
    (executeConditionNode data vars).output =
      some (.vObj [("condition_result", .vBool false)]) ∧
    (∀ (wf : Workflow) (env : Env) (node : Node) (ctx : WorkflowContext) (fuel : Nat),
      node.type = "condition" → node.data = data → ctx.variables = vars →
      runLoop wf env (some node) ctx (fuel + 1) =
        runLoop wf env (getNextNode wf node.id vars (some (.vBool false)))
          (⟨vars,
            ctx.execution_log ++ [mkLogEntry node (executeConditionNode data vars)],
            some node.id⟩ : WorkflowContext) fuel) := by
  have hcond := condNode_parsefail data vars hty hparse
  refine ⟨by rw [hcond], by rw [hcond], ?_⟩
  intro wf env node ctx fuel hnode hdata hvars
  have hexec : executeNode node { ctx with current_node_id := some node.id } env =
      (executeConditionNode data vars, { ctx with current_node_id := some node.id }) := by
    unfold executeNode
    rw [hnode]
    simp [hdata, hvars]
  rw [runLoop_succ, hexec]
  dsimp only
  rw [if_neg (by rw [hcond]; exact fun hh => Bool.noConfusion hh)]
  rw [if_neg (by rw [hnode]; decide)]
  have hout : condOutcomeOf node (executeConditionNode data vars) = some (.vBool false) := by
    rw [hcond]
    unfold condOutcomeOf
    rw [if_pos hnode]
    rfl
  rw [hout, hvars]

/-- Witness for the C8 amendment at the concrete condition `abc > 1`. -/
theorem claim_C8_witness :
    (executeConditionNode dataGTabc []).success = true ∧
    runLoop wfCond envT (some nodeCond) { «variables» := [] } 1 =
      runLoop wfCond envT (getNextNode wfCond "c" [] (some (.vBool false)))
        { «variables» := [], current_node_id := some "c",
          execution_log := [mkLogEntry nodeCond (executeConditionNode dataGTabc [])] } 0 := by
  have h := claim_C8_amended_not_an_error dataGTabc []
    (Or.inl (by decide)) (Or.inl (by decide))
  exact ⟨h.1, h.2.2 wfCond envT nodeCond { «variables» := [] } 0 rfl rfl rfl⟩

/-! ## C9 -/

/-- Counterexample to C9: with a body present and a `Content-Type` header
configured under the casing `CONTENT-TYPE`, the engine still adds the
default `Content-Type: application/json` — the check is not
case-insensitive, so the configured header is not "left as configured" as
the sole Content-Type. -/
theorem claim_C9_counterexample :
    requestHeadersOf [] dataC9 = .ok [("CONTENT-TYPE", .vStr "text/plain")] ∧
    bodyOf [] dataC9 = some (.vStr "x") ∧
    dictGet (finalHeaders [("CONTENT-TYPE", .vStr "text/plain")] (some (.vStr "x")))
      "Content-Type" = some (.vStr "application/json") ∧
    dictGet (finalHeaders [("CONTENT-TYPE", .vStr "text/plain")] (some (.vStr "x")))
      "CONTENT-TYPE" = some (.vStr "text/plain") := by
  refine ⟨by decide, by decide, by decide, by decide⟩

/-- C9 as amended: with a truthy body, the default is added exactly when
neither the exact key `Content-Type` nor the exact key `content-type` is
present in the built header map; under any other casing the configured
header is not detected and the default is added alongside it.  Without a
body, or with either exact spelling present, the headers are unchanged. -/
theorem claim_C9_amended_exact_spellings (hs : List (String × Value)) (body : Option Value) :
    (pyTruthyOpt body = true → dictGet hs "Content-Type" = none →
      dictGet hs "content-type" = none →
      finalHeaders hs body = dictInsert hs "Content-Type" (.vStr "application/json")) ∧
    (dictGet hs "Content-Type" ≠ none ∨ dictGet hs "content-type" ≠ none ∨
        pyTruthyOpt body = false →
      finalHeaders hs body = hs) := by
  constructor
  · intro hb h1 h2
    unfold finalHeaders
    rw [if_pos (by simp [hb, h1, h2])]
  · intro h
    unfold finalHeaders
    rcases h with h | h | h
    · rw [if_neg (by simp [Option.isNone_iff_eq_none, h])]
    · rw [if_neg (by simp [Option.isNone_iff_eq_none, h])]
    · rw [if_neg (by simp [h])]

/-- Witness for the C9 amendment: default added on an empty header map,
headers unchanged when the exact lowercase spelling is present. -/
theorem claim_C9_witness :
    finalHeaders [] (some (.vStr "x")) = [("Content-Type", .vStr "application/json")] ∧
    finalHeaders [("content-type", .vStr "text/plain")] (some (.vStr "x")) =
      [("content-type", .vStr "text/plain")] := by
  constructor
  · exact ((claim_C9_amended_exact_spellings [] (some (.vStr "x"))).1
      (by decide) (by decide) (by decide)).trans (by decide)
  · exact (claim_C9_amended_exact_spellings [("content-type", .vStr "text/plain")]
      (some (.vStr "x"))).2 (Or.inr (Or.inl (by decide)))

/-! ## C10 -/

/-- C10: when a request node has a truthy `output_variable` and the endpoint
answers with status ≥ 400, the full response object is written into the
variable store even though the node then fails; the run loop halts at that
node with `success = false` and the returned variable snapshot already
contains the stored response (state is mutated on error, not rolled back). -/
theorem claim_C10_response_stored_on_failure (data : List (String × Value))
    (ctx : WorkflowContext) (env : Env) (m : String) (hs : List (String × Value))
    (name : String) (resp : HttpResponse)
    (hm : methodOf data = .ok m)
    (hh : requestHeadersOf ctx.variables data = .ok hs)
    (henv : env m (urlOf ctx.variables data) (finalHeaders hs (bodyOf ctx.variables data))
        (contentOf m (bodyOf ctx.variables data)) = .ok resp)
    (hstatus : 400 ≤ resp.status_code)
    (hov : dictGet data "output_variable" = some (.vStr name))
    (hname : name ≠ "") :
    (executeRequestNode data ctx env).1.success = false ∧
    dictGet (executeRequestNode data ctx env).2.variables name =
      some (responseValue resp (finalHeaders hs (bodyOf ctx.variables data))
        (urlOf ctx.variables data)) ∧
    (∀ (wf : Workflow) (node : Node) (fuel : Nat),
      node.type = "request" → node.data = data →
      (runLoop wf env (some node) ctx (fuel + 1)).success = false ∧
      (runLoop wf env (some node) ctx (fuel + 1)).failed_node_id = some node.id ∧
      dictGet (runLoop wf env (some node) ctx (fuel + 1)).output_variables name =
        some (responseValue resp (finalHeaders hs (bodyOf ctx.variables data))
          (urlOf ctx.variables data))) := by
  have hfail : decide (resp.status_code < 400) = false := by
    simp only [decide_eq_false_iff_not, not_lt]
    exact hstatus
  have hkey : ∀ ctx2 : WorkflowContext, ctx2.variables = ctx.variables →
      executeRequestNode data ctx2 env =
      ({ success := decide (resp.status_code < 400),
         output := some (responseValue resp (finalHeaders hs (bodyOf ctx.variables data))
           (urlOf ctx.variables data)) },
       (⟨dictInsert ctx.variables name
           (responseValue resp (finalHeaders hs (bodyOf ctx.variables data))
             (urlOf ctx.variables data)),
         ctx2.execution_log, ctx2.current_node_id⟩ : WorkflowContext)) := by
    intro ctx2 hv2
    unfold executeRequestNode
    rw [hv2, hm]
    dsimp only
    rw [hh]
    dsimp only
    rw [henv]
    dsimp only
    rw [hov]
    dsimp only
    rw [if_pos (show pyTruthy (.vStr name) = true by
      simp [pyTruthy]
      exact hname)]
    rfl
  refine ⟨?_, ?_, ?_⟩
  · rw [hkey ctx rfl, hfail]
  · rw [hkey ctx rfl]
    exact dictGet_dictInsert_self _ _ _
  · intro wf node fuel hnode hdata
    have hexec : executeNode node { ctx with current_node_id := some node.id } env =
        executeRequestNode data { ctx with current_node_id := some node.id } env := by
      unfold executeNode
      rw [hnode]
      simp [hdata]
    rw [runLoop_succ, hexec, hkey { ctx with current_node_id := some node.id } rfl]
    dsimp only
    rw [if_pos (by rw [hfail] : (decide (resp.status_code < 400) = false))]
    exact ⟨rfl, rfl, dictGet_dictInsert_self _ _ _⟩

/-- Witness for C10: a concrete request node against an endpoint answering
HTTP 500 stores the response under `resp` and fails the run at that node. -/
theorem claim_C10_witness :
    (executeRequestNode dataReq { «variables» := [] } env500).1.success = false ∧
    dictGet (executeRequestNode dataReq { «variables» := [] } env500).2.variables "resp" =
      some (responseValue ⟨500, [("Server", "x")], "oops"⟩ [] (.vStr "http://x")) ∧
    (runLoop wfReq env500 (some nodeReq) { «variables» := [] } 1).success = false ∧
    (runLoop wfReq env500 (some nodeReq) { «variables» := [] } 1).failed_node_id =
      some "r" := by
  have h := claim_C10_response_stored_on_failure dataReq { «variables» := [] } env500 "GET"
    [] "resp" ⟨500, [("Server", "x")], "oops"⟩ (by decide) (by decide) rfl (by decide)
    (by decide) (by decide)
  have h3 := h.2.2 wfReq nodeReq 0 rfl rfl
  exact ⟨h.1, h.2.1.trans (by decide), h3.1, h3.2.1⟩

end Executor
